import Mathlib

/-!
# Verification of the `LGDetector` orchestration core (src/model/lg.py)

Shallow embedding of the parts of `LGDetector` that the claims are about:
box perturbation (`box_perturbation`), the perturbation guard in
`extract_feat`, the perturbation factor override in `__init__`, the
semantic-feature projector call sites (`compute_semantic_feat`), the
downstream-head error handling in `loss` / `predict`, the padded
instance-feature assembly (`pad_sequence` over `split`), the edge
re-slicing in `add_lg_to_results` / `add_scene_graph_to_results`, the
graph-head training routing in `extract_lg`, and the rescale loop in
`predict`.

Tensors of box coordinates are modelled over `ℚ`; random draws made by
`torch.rand` are passed in explicitly as lists of rationals in `[0, 1)`.
Fallible Python code (unbound locals, raised exceptions) is modelled
with `Option` / `Except`.
-/

namespace LG

/-- A bounding box in `(x1, y1, x2, y2)` format, one row of a torch box
tensor (src/model/lg.py works with `N x 4` box tensors). -/
structure Box where
  x1 : ℚ
  y1 : ℚ
  x2 : ℚ
  y2 : ℚ
  deriving Repr, DecidableEq

/-- One row of the `torch.rand(n, 4)` draw used by `box_perturbation`:
four independent uniform samples in `[0, 1)`. -/
structure Draw where
  r1 : ℚ
  r2 : ℚ
  r3 : ℚ
  r4 : ℚ
  deriving Repr, DecidableEq

/-- `draw ∈ [0,1]^4`, the support of `torch.rand` (closed on the right
to be safe: `torch.rand` samples `[0,1)`). -/
def Draw.valid (d : Draw) : Prop :=
  0 ≤ d.r1 ∧ d.r1 ≤ 1 ∧ 0 ≤ d.r2 ∧ d.r2 ≤ 1 ∧
  0 ≤ d.r3 ∧ d.r3 ≤ 1 ∧ 0 ≤ d.r4 ∧ d.r4 ≤ 1

/-- A well-formed box: `x1 ≤ x2` and `y1 ≤ y2`. -/
def Box.wf (b : Box) : Prop := b.x1 ≤ b.x2 ∧ b.y1 ≤ b.y2

instance (b : Box) : Decidable b.wf := by unfold Box.wf; infer_instance

instance (d : Draw) : Decidable d.valid := by unfold Draw.valid; infer_instance

/-- lg.py line 598/603: the perturbation added to one box.  With
`h = xmax - xmin` and `w = ymax - ymin` (the names used in the source),
the four coordinates receive
`perturb_factor * (rand * [h, w, h, w] - [h, w, h, w])`. -/
def perturbBox (p : ℚ) (b : Box) (d : Draw) : Box :=
  let h := b.x2 - b.x1
  let w := b.y2 - b.y1
  { x1 := b.x1 + p * (d.r1 * h - h)
    y1 := b.y1 + p * (d.r2 * w - w)
    x2 := b.x2 + p * (d.r3 * h - h)
    y2 := b.y2 + p * (d.r4 * w - w) }

/-- lg.py lines 608-612: clamp each coordinate from below by `0` and
from above by the image shape; `Tensor(image_shape).flip(0)` turns the
`(H, W)` shape into `(W, H)`, and `.repeat(_, 2)` makes the per-row
bound `(W, H, W, H)`, so x-coordinates are clamped to `[0, W]` and
y-coordinates to `[0, H]`. -/
def clampBox (W H : ℚ) (b : Box) : Box :=
  { x1 := min W (max 0 b.x1)
    y1 := min H (max 0 b.y1)
    x2 := min W (max 0 b.x2)
    y2 := min H (max 0 b.y2) }

/-- `torch.Tensor.split(sizes)`: cut a flat list into consecutive groups
of the given sizes. -/
def splitList {α : Type} (xs : List α) : List ℕ → List (List α)
  | [] => []
  | n :: rest => xs.take n :: splitList (xs.drop n) rest

/-- `torch.nn.utils.rnn.pad_sequence(…, batch_first=True)`: pad every
group with `pad` up to the longest group length. -/
def pad_sequence {α : Type} (pad : α) (seqs : List (List α)) : List (List α) :=
  let maxLen := (seqs.map List.length).foldr max 0
  seqs.map (fun s => s ++ List.replicate (maxLen - s.length) pad)

/-- lg.py lines 584-614, `LGDetector.box_perturbation`.

The image shape argument is the `(H, W)` pair `results[0].ori_shape`.
`draws` supplies the `torch.rand` samples, one `Draw` per box (the
flattened batch order of `torch.cat(boxes)`).

The clip branch (`clip_size != -1`, lines 594-599) computes `perturb`
but never assigns `perturbed_boxes`, so line 609 raises
`UnboundLocalError` (`torch.stack(boxes_per_img)` on a list of Python
ints on line 596 already raises a `TypeError` before that); the call
therefore never returns in clip mode, modelled as `none`. -/
def box_perturbation (perturb_factor : ℚ) (boxes : List (List Box))
    (image_shape : ℚ × ℚ) (clip_size : Int) (draws : List Draw) :
    Option (List (List Box)) :=
  let boxes_per_img := boxes.map List.length
  let p := min perturb_factor 1
  if clip_size ≠ -1 then
    none
  else
    let perturb_boxes := ((boxes.flatten).zip draws).map (fun bd => perturbBox p bd.1 bd.2)
    let clamped := perturb_boxes.map (clampBox image_shape.2 image_shape.1)
    some (splitList clamped boxes_per_img)

/-- lg.py line 72 (`LGDetector.__init__`):
`self.perturb_factor = perturb_factor if not use_gt_dets else 0`. -/
def init_perturb_factor (perturb_factor : ℚ) (use_gt_dets : Bool) : ℚ :=
  if use_gt_dets then 0 else perturb_factor

/-- lg.py lines 418-420 (`LGDetector.extract_feat`): the boxes used for
ROI feature extraction are the perturbed boxes when
`(self.training or force_perturb) and self.perturb_factor > 0`, and the
unmodified input boxes otherwise. -/
def extract_feat_boxes (training force_perturb : Bool) (perturb_factor : ℚ)
    (boxes : List (List Box)) (image_shape : ℚ × ℚ) (clip_size : Int)
    (draws : List Draw) : Option (List (List Box)) :=
  if (training || force_perturb) && decide (perturb_factor > 0) then
    box_perturbation perturb_factor boxes image_shape clip_size draws
  else
    some boxes

/-- lg.py lines 450-453 (`LGDetector.extract_feat`, region-pooling path):
`feats.instance_feats = pad_sequence(roi_feats.…split(boxes_per_img), batch_first=True)`
with `boxes_per_img = [len(b) for b in boxes]`.  `roi_feats` holds one
pooled feature vector per ROI (flattened batch order); `pad` is the
zero vector `pad_sequence` pads with. -/
def extract_feat_instance_feats {α : Type} (pad : α) (roi_feats : List α)
    (boxes : List (List Box)) : List (List α) :=
  pad_sequence pad (splitList roi_feats (boxes.map List.length))

/-- Modelled from the spec: `build_mlp` (src/model/predictor_heads/modules/layers.py)
is not under src/.  Spec section 4.3: the projector is a multilayer
perceptron with batch-normalized hidden layers, and batch normalization
requires more than one sample, so a training-mode call on a batch of
fewer than two rows fails.  The model applies an abstract per-row map
`f` (each output row has the target embedding size) and fails on a
sub-two-row batch. -/
def mlp_projector (f : List ℚ → List ℚ) (input : List (List ℚ)) :
    Except String (List (List ℚ)) :=
  if input.length < 2 then
    Except.error "Expected more than 1 value per channel when training"
  else
    Except.ok (input.map f)

/-- The column count of a row-major matrix (`tensor.shape[1]`). -/
def matCols (rows : List (List ℚ)) : ℕ := (rows.headD []).length

/-- lg.py lines 545-548 (`LGDetector.compute_semantic_feat`, node level):
`if sem_feat_input.shape[0] == 1:` duplicate the single row
(`torch.cat([sem_feat_input, sem_feat_input])`), run the projector, and
keep only the first output row; otherwise run the projector directly. -/
def semantic_feat_projector_call (f : List ℚ → List ℚ)
    (sem_feat_input : List (List ℚ)) : Except String (List (List ℚ)) :=
  if sem_feat_input.length == 1 then
    (mlp_projector f (sem_feat_input ++ sem_feat_input)).map (fun out => out.take 1)
  else
    mlp_projector f sem_feat_input

/-- lg.py lines 554-555: one row of `edge_sem_input`, the concatenation
of the 4 normalized edge-box coordinates (`eb_norm`) with the
`num_edge_classes` detached relation class logits. -/
def edge_sem_input_row (eb_norm : Box) (class_logits : List ℚ) : List ℚ :=
  [eb_norm.x1, eb_norm.y1, eb_norm.x2, eb_norm.y2] ++ class_logits

/-- lg.py lines 556-559 (`LGDetector.compute_semantic_feat`, edge level):
the guard is `if edge_sem_input.shape[1] == 1:` — it tests the COLUMN
count (`shape[1]`), not the row count — duplicating the input
(`edge_sem_input.repeat(2, 1)`) and keeping the first output row when
it fires, and calling the projector on the input unchanged otherwise. -/
def edge_semantic_feat_projector_call (f : List ℚ → List ℚ)
    (edge_sem_input : List (List ℚ)) : Except String (List (List ℚ)) :=
  if matCols edge_sem_input == 1 then
    (mlp_projector f (edge_sem_input ++ edge_sem_input)).map (fun out => out.take 1)
  else
    mlp_projector f edge_sem_input

/-- A raised Python exception: class name and message. -/
structure PyErr where
  name : String
  msg : String
  deriving Repr, DecidableEq

/-- Modelled from the spec: `DSHead.loss` / `DSHead.predict`
(src/model/predictor_heads/ds.py is not under src/).  Spec sections 4.1
step 7 and 6: the downstream head is graph-conditioned
(`loss(graph, features, annotations)`, `predict(graph, features)`), so
a call whose graph argument is `None` fails with an `AttributeError`
while reading attributes of the absent graph; with a graph it returns
the abstract head output `out`. -/
def ds_head_call {α β : Type} (graph : Option α) (out : α → β) : Except PyErr β :=
  match graph with
  | none => Except.error ⟨"AttributeError", "NoneType object has no attribute nodes"⟩
  | some g => Except.ok (out g)

/-- lg.py lines 195-201 (`LGDetector.loss`, downstream block): when a ds
head is configured its loss is computed from the graph and merged into
`losses`; an `AttributeError` from the head is caught and re-raised as
`NotImplementedError("Must have graph head in order to do downstream prediction")`. -/
def loss_ds_block {α : Type} (has_ds_head : Bool) (graph : Option α)
    (ds_loss : α → List (String × ℚ)) (losses : List (String × ℚ)) :
    Except PyErr (List (String × ℚ)) :=
  if has_ds_head then
    match ds_head_call graph ds_loss with
    | Except.error e =>
        if e.name = "AttributeError" then
          Except.error ⟨"NotImplementedError",
            "Must have graph head in order to do downstream prediction"⟩
        else
          Except.error e
    | Except.ok ds_losses => Except.ok (losses ++ ds_losses)
  else
    Except.ok losses

/-- lg.py lines 231-238 (`LGDetector.predict`, downstream block): when a
ds head is configured its predictions are attached to the results; an
`AttributeError` from the head is re-raised as the same
`NotImplementedError`. -/
def predict_ds_block {α β : Type} (has_ds_head : Bool) (graph : Option α)
    (ds_pred : α → List β) (results : List β) : Except PyErr (List β) :=
  if has_ds_head then
    match ds_head_call graph ds_pred with
    | Except.error e =>
        if e.name = "AttributeError" then
          Except.error ⟨"NotImplementedError",
            "Must have graph head in order to do downstream prediction"⟩
        else
          Except.error e
    | Except.ok ds_preds => Except.ok ds_preds
  else
    Except.ok results

/-- lg.py lines 342-370 (`LGDetector.extract_lg`): the graph handed to
the downstream block is the graph head output when a graph head is
configured, and `None` otherwise (line 369: `graph = None`). -/
def extract_lg_graph {γ α : Type} (graph_head : Option γ) (run : γ → α) : Option α :=
  graph_head.map run

/-- lg.py `LGDetector.loss`, reduced to the pieces that settle the
downstream-head claim: extract the latent graph (`None` without a graph
head) and run the downstream block on it.  `det_losses` abstracts the
detector / reconstruction losses accumulated before the block. -/
def LGDetector_loss {γ α : Type} (graph_head : Option γ) (run : γ → α)
    (has_ds_head : Bool) (ds_loss : α → List (String × ℚ))
    (det_losses : List (String × ℚ)) : Except PyErr (List (String × ℚ)) :=
  loss_ds_block has_ds_head (extract_lg_graph graph_head run) ds_loss det_losses

/-- lg.py `LGDetector.predict`, reduced to the pieces that settle the
downstream-head claim: extract the latent graph and run the downstream
prediction block on it. -/
def LGDetector_predict {γ α β : Type} (graph_head : Option γ) (run : γ → α)
    (has_ds_head : Bool) (ds_pred : α → List β) (results : List β) :
    Except PyErr (List β) :=
  predict_ds_block has_ds_head (extract_lg_graph graph_head run) ds_pred results

/-- A stack of binary instance masks, tracked by count (`shape[0]`) and
spatial shape: the rescale claim is about which shape each image ends
at, not about pixel values. -/
structure MaskTensor where
  count : ℕ
  shape : ℕ × ℕ
  deriving Repr, DecidableEq

/-- One per-image entry of `results` as `LGDetector.predict` sees it
before rescaling: its `scale_factor` (w then h, as mmdet stores it),
its original shape `(H, W)`, predicted boxes, and an optional mask
stack. -/
structure PredResult where
  scale_factor : ℚ × ℚ
  ori_shape : ℕ × ℕ
  bboxes : List Box
  masks : Option MaskTensor
  deriving Repr, DecidableEq

/-- `mmdet.structures.bbox.scale_boxes`: multiply the x coordinates by
the first factor and the y coordinates by the second. -/
def scale_boxes (sf : ℚ × ℚ) (b : Box) : Box :=
  { x1 := b.x1 * sf.1, y1 := b.y1 * sf.2, x2 := b.x2 * sf.1, y2 := b.y2 * sf.2 }

/-- `F.interpolate(masks, size)` as used on lg.py lines 250-251: resize
the stack to the given spatial size; torch rejects an empty input batch
here, modelled as `none` on a zero-mask stack. -/
def interpolate (m : MaskTensor) (size : ℕ × ℕ) : Option MaskTensor :=
  if m.count = 0 then none else some ⟨m.count, size⟩

/-- lg.py lines 246-251: the mask branch of the rescale loop.  A result
with zero predicted masks gets `torch.zeros((0, *r.ori_shape))` and the
resize is skipped; otherwise the stack is interpolated to `r.ori_shape`. -/
def rescale_masks (m : MaskTensor) (ori_shape : ℕ × ℕ) : Option MaskTensor :=
  if m.count = 0 then some ⟨0, ori_shape⟩ else interpolate m ori_shape

/-- lg.py lines 240-251 (`LGDetector.predict`, rescale block):
`scale_factor = 1 / torch.Tensor(results[0].scale_factor)` is computed
ONCE from the first result, then every result has its boxes scaled by
it; masks go through `rescale_masks` with that result's own
`ori_shape`. -/
def predict_rescale (results : List PredResult) : List PredResult :=
  match results with
  | [] => []
  | r0 :: _ =>
      let sf := (1 / r0.scale_factor.1, 1 / r0.scale_factor.2)
      results.map (fun r =>
        { r with
          bboxes := r.bboxes.map (scale_boxes sf)
          masks := r.masks.bind (fun m => rescale_masks m r.ori_shape) })

/-- A concrete first image for the rescale examples: scale factor 2,
original shape 10 x 10, no boxes, no mask key. -/
def exA : PredResult := ⟨(2, 2), (10, 10), [], none⟩

/-- A concrete second image for the rescale examples: scale factor 4,
original shape 20 x 20, one box, an empty mask stack. -/
def exB : PredResult := ⟨(4, 4), (20, 20), [⟨4, 4, 8, 8⟩], some ⟨0, (5, 5)⟩⟩

/-- One row of a `graph.edges.edge_flats` tensor: the leading image
index and the two node indices. -/
structure EdgeFlat where
  img : ℕ
  src : ℕ
  tgt : ℕ
  deriving Repr, DecidableEq

/-- lg.py lines 294-301/310 (`LGDetector.add_lg_to_results`): the
`edge_flats` field for image `batch_ind` is
`graph.edges.edge_flats.split(epi)[batch_ind][:, 1:]` — re-sliced by
the per-image edge counts `epi`, then the image-index column dropped. -/
def add_lg_edge_flats (edge_flats : List EdgeFlat) (epi : List ℕ)
    (batch_ind : ℕ) : List (ℕ × ℕ) :=
  ((splitList edge_flats epi).getD batch_ind []).map (fun e => (e.src, e.tgt))

/-- lg.py lines 303-310 (`LGDetector.add_lg_to_results`): every other
tensor-valued edge field is `graph.edges.get(k).split(epi)[batch_ind]`. -/
def add_lg_edge_field {α : Type} (field : List α) (epi : List ℕ)
    (batch_ind : ℕ) : List α :=
  (splitList field epi).getD batch_ind []

/-- lg.py lines 268-269 (`LGDetector.add_scene_graph_to_results`):
`batch_inds = graph.edges.edge_flats[:, 0] == ind` then
`edge_flats[batch_inds][:, 1:]` — the rows of image `ind`, image-index
column dropped. -/
def scene_graph_edge_flats (edge_flats : List EdgeFlat) (ind : ℕ) : List (ℕ × ℕ) :=
  (edge_flats.filter (fun e => e.img == ind)).map (fun e => (e.src, e.tgt))

/-- lg.py line 271: `relations = graph.edges.class_logits[batch_inds]` —
the class-logit rows at the positions where the edge-flat row belongs
to image `ind` (boolean-mask indexing over rows aligned 1:1 with
`edge_flats`). -/
def scene_graph_relations {α : Type} (edge_flats : List EdgeFlat)
    (class_logits : List α) (ind : ℕ) : List α :=
  ((edge_flats.zip class_logits).filter (fun p => p.1.img == ind)).map (fun p => p.2)

/-- The grouping invariant of a globally-batched edge tensor: the rows
of `groups[i]` all carry image index `k + i` (the graph head emits
edge_flats sorted by image, with `edges_per_img` counting each group). -/
def taggedFrom {β : Type} (f : β → ℕ) : List (List β) → ℕ → Prop
  | [], _ => True
  | g :: gs, k => (∀ e ∈ g, f e = k) ∧ taggedFrom f gs (k + 1)

instance taggedFrom.dec {β : Type} (f : β → ℕ) :
    ∀ (gs : List (List β)) (k : ℕ), Decidable (taggedFrom f gs k)
  | [], _ => by unfold taggedFrom; infer_instance
  | g :: gs, k => by
      unfold taggedFrom
      have := taggedFrom.dec f gs (k + 1)
      infer_instance

/-- Concrete grouped edge-flat rows with the per-image edge counts
`[3, 0, 5]` of the spec example (section 8): image 0 has 3 edges,
image 1 none, image 2 five. -/
def egs : List (List EdgeFlat) :=
  [[⟨0, 0, 1⟩, ⟨0, 1, 0⟩, ⟨0, 1, 2⟩], [],
   [⟨2, 0, 1⟩, ⟨2, 1, 0⟩, ⟨2, 0, 2⟩, ⟨2, 2, 0⟩, ⟨2, 1, 2⟩]]

/-- Concrete per-image groups of an edge-level field (one scalar per
edge), aligned with `egs`. -/
def efs : List (List ℚ) := [[1, 2, 3], [], [4, 5, 6, 7, 8]]

/-- How `extract_lg` (lg.py lines 342-358) exercises the graph head. -/
inductive GraphAction where
  | lossAndPredict
  | predictOnly
  deriving Repr, DecidableEq

/-- lg.py lines 342-358 (`LGDetector.extract_lg`): with a graph head
configured, `loss_and_predict` is called when the detector is training,
or when `force_train_graph_head` is set while the whole model is in
training mode; otherwise `predict` is called. -/
def extract_lg_graph_action (detector_training : Bool)
    (force_train_graph_head : Bool) (model_training : Bool) : GraphAction :=
  if detector_training then
    GraphAction.lossAndPredict
  else
    if force_train_graph_head && model_training then
      GraphAction.lossAndPredict
    else
      GraphAction.predictOnly

/-! ## Helper lemmas -/

/-- With a zero perturbation factor the guard on lg.py line 419 is false
and `extract_feat` keeps the input boxes. -/
theorem extract_feat_boxes_zero_factor (training force_perturb : Bool)
    (boxes : List (List Box)) (image_shape : ℚ × ℚ) (clip_size : Int)
    (draws : List Draw) :
    extract_feat_boxes training force_perturb 0 boxes image_shape clip_size draws
      = some boxes := by
  have h : decide ((0 : ℚ) > 0) = false := by decide
  simp [extract_feat_boxes, h]

/-- `getD` through `map` at an in-bounds index. -/
theorem list_getD_map_of_lt {α β : Type} (f : α → β) (l : List α) (i : ℕ)
    (d : β) (d0 : α) (hi : i < l.length) :
    (l.map f).getD i d = f (l.getD i d0) := by
  have hi2 : i < (l.map f).length := by simpa using hi
  rw [List.getD_eq_getElem _ _ hi2, List.getD_eq_getElem _ _ hi, List.getElem_map]

/-- `splitList` returns one group per requested size. -/
theorem splitList_length {α : Type} (sizes : List ℕ) (xs : List α) :
    (splitList xs sizes).length = sizes.length := by
  induction sizes generalizing xs with
  | nil => rfl
  | cons n rest ih => simp [splitList, ih]

/-- When the flat list has exactly the requested total length, each
group of `splitList` has its requested size. -/
theorem splitList_map_length {α : Type} (sizes : List ℕ) :
    ∀ xs : List α, xs.length = sizes.sum →
      (splitList xs sizes).map List.length = sizes := by
  induction sizes with
  | nil => intro xs _; rfl
  | cons n rest ih =>
      intro xs h
      simp only [List.sum_cons] at h
      simp only [splitList, List.map_cons, List.length_take]
      rw [ih (xs.drop n) (by rw [List.length_drop]; omega), min_eq_left (by omega)]

/-- Every element of a `splitList` group comes from the flat list. -/
theorem mem_of_mem_splitList {α : Type} (sizes : List ℕ) (b : α) :
    ∀ (xs : List α) (bs : List α), bs ∈ splitList xs sizes → b ∈ bs → b ∈ xs := by
  induction sizes with
  | nil => intro xs bs hbs _; cases hbs
  | cons n rest ih =>
      intro xs bs hbs hb
      simp only [splitList, List.mem_cons] at hbs
      rcases hbs with rfl | h
      · exact List.mem_of_mem_take hb
      · exact List.mem_of_mem_drop (ih (xs.drop n) bs h hb)

/-- A member of a list of naturals is bounded by the `foldr max 0`. -/
theorem le_foldr_max (l : List ℕ) : ∀ a ∈ l, a ≤ l.foldr max 0 := by
  induction l with
  | nil => intro a ha; cases ha
  | cons x xs ih =>
      intro a ha
      rcases List.mem_cons.mp ha with rfl | h
      · exact le_max_left _ _
      · exact le_trans (ih a h) (le_max_right _ _)

/-- Every row of `pad_sequence` has the common padded length: the
maximum group length. -/
theorem pad_sequence_row_length {α : Type} (pad : α) (seqs : List (List α)) :
    ∀ row ∈ pad_sequence pad seqs,
      row.length = (seqs.map List.length).foldr max 0 := by
  intro row hrow
  unfold pad_sequence at hrow
  obtain ⟨s, hs, rfl⟩ := List.mem_map.mp hrow
  have hle : s.length ≤ (seqs.map List.length).foldr max 0 :=
    le_foldr_max _ _ (List.mem_map_of_mem List.length hs)
  simp only [List.length_append, List.length_replicate]
  omega

/-- Splitting a flatten by the group lengths recovers the groups. -/
theorem splitList_flatten {β : Type} (gs : List (List β)) :
    splitList gs.flatten (gs.map List.length) = gs := by
  induction gs with
  | nil => rfl
  | cons g rest ih =>
      simp only [List.flatten_cons, List.map_cons, splitList]
      rw [List.take_left, List.drop_left, ih]

/-- Every element of the flatten of a group list tagged from `k` has
tag at least `k`. -/
theorem taggedFrom_flatten_le {β : Type} (f : β → ℕ) :
    ∀ (gs : List (List β)) (k : ℕ), taggedFrom f gs k →
      ∀ e ∈ gs.flatten, k ≤ f e := by
  intro gs
  induction gs with
  | nil =>
      intro k _ e he
      simp at he
  | cons g rest ih =>
      intro k ht e he
      obtain ⟨hg, hrest⟩ := ht
      rw [List.flatten_cons] at he
      rcases List.mem_append.mp he with h | h
      · exact le_of_eq (hg e h).symm
      · exact le_trans (Nat.le_succ k) (ih (k + 1) hrest e h)

/-- Filtering the flatten of a tagged group list by the tag `k + i`
picks out exactly group `i`. -/
theorem filter_flatten_tagged {β : Type} (f : β → ℕ) :
    ∀ (gs : List (List β)) (k i : ℕ), taggedFrom f gs k → i < gs.length →
      gs.flatten.filter (fun e => f e == k + i) = gs.getD i [] := by
  intro gs
  induction gs with
  | nil =>
      intro k i _ hi
      simp at hi
  | cons g rest ih =>
      intro k i ht hi
      obtain ⟨hg, hrest⟩ := ht
      rw [List.flatten_cons, List.filter_append]
      cases i with
      | zero =>
          have h1 : g.filter (fun e => f e == k + 0) = g := by
            rw [List.filter_eq_self]
            intro e he
            simp [hg e he]
          have h2 : rest.flatten.filter (fun e => f e == k + 0) = [] := by
            rw [List.filter_eq_nil_iff]
            intro e he
            have hle := taggedFrom_flatten_le f rest (k + 1) hrest e he
            simp only [beq_iff_eq]
            omega
          rw [h1, h2]
          simp [List.getD_cons_zero]
      | succ j =>
          have h1 : g.filter (fun e => f e == k + (j + 1)) = [] := by
            rw [List.filter_eq_nil_iff]
            intro e he
            have he2 := hg e he
            simp only [beq_iff_eq]
            omega
          have h2 : rest.flatten.filter (fun e => f e == k + (j + 1))
              = rest.getD j [] := by
            have hk : k + (j + 1) = (k + 1) + j := by omega
            rw [hk]
            exact ih (k + 1) j hrest (by simpa using hi)
          rw [h1, h2]
          simp [List.getD_cons_succ]

/-- Zipping two flattens whose groups have matching lengths equals the
flatten of the groupwise zip. -/
theorem zip_flatten_eq {β γ : Type} :
    ∀ (gs : List (List β)) (hs : List (List γ)),
      gs.map List.length = hs.map List.length →
      gs.flatten.zip hs.flatten = (List.zipWith List.zip gs hs).flatten := by
  intro gs
  induction gs with
  | nil =>
      intro hs h
      have : hs = [] := List.map_eq_nil_iff.mp h.symm
      simp [this]
  | cons g rest ih =>
      intro hs h
      cases hs with
      | nil => simp at h
      | cons h1 hs2 =>
          simp only [List.map_cons, List.cons.injEq] at h
          obtain ⟨hlen1, hrest⟩ := h
          simp only [List.flatten_cons, List.zipWith_cons_cons]
          rw [List.zip_append hlen1, ih hs2 hrest]

/-- Tagging survives a groupwise zip (on the first components). -/
theorem taggedFrom_zipWith {β γ : Type} (f : β → ℕ) :
    ∀ (gs : List (List β)) (hs : List (List γ)) (k : ℕ), taggedFrom f gs k →
      taggedFrom (fun p : β × γ => f p.1) (List.zipWith List.zip gs hs) k := by
  intro gs
  induction gs with
  | nil =>
      intro hs k _
      simp [taggedFrom]
  | cons g rest ih =>
      intro hs k ht
      cases hs with
      | nil => simp [taggedFrom]
      | cons h1 hs2 =>
          obtain ⟨hg, hrest⟩ := ht
          exact ⟨fun p hp => hg p.1 (List.of_mem_zip hp).1, ih hs2 (k + 1) hrest⟩

/-- `getD` of a groupwise zip at an in-bounds index. -/
theorem getD_zipWith_zip {β γ : Type} (gs : List (List β)) (hs : List (List γ))
    (i : ℕ) (hi : i < gs.length) (hj : i < hs.length) :
    (List.zipWith List.zip gs hs).getD i [] = (gs.getD i []).zip (hs.getD i []) := by
  have hz : i < (List.zipWith List.zip gs hs).length := by
    rw [List.length_zipWith]
    omega
  rw [List.getD_eq_getElem _ _ hz, List.getD_eq_getElem _ _ hi,
    List.getD_eq_getElem _ _ hj, List.getElem_zipWith]

/-- Perturbing a well-formed box by draws in `[0, 1]` with a factor in
`[0, 1]` and clamping to a nonnegative image keeps it well-formed and
inside the image. -/
theorem perturb_clamp_box_valid (p W H : ℚ) (b : Box) (d : Draw)
    (hp0 : 0 ≤ p) (hp1 : p ≤ 1) (hW : 0 ≤ W) (hH : 0 ≤ H)
    (hwf : b.wf) (hd : d.valid) :
    0 ≤ (clampBox W H (perturbBox p b d)).x1 ∧
    (clampBox W H (perturbBox p b d)).x1 ≤ (clampBox W H (perturbBox p b d)).x2 ∧
    (clampBox W H (perturbBox p b d)).x2 ≤ W ∧
    0 ≤ (clampBox W H (perturbBox p b d)).y1 ∧
    (clampBox W H (perturbBox p b d)).y1 ≤ (clampBox W H (perturbBox p b d)).y2 ∧
    (clampBox W H (perturbBox p b d)).y2 ≤ H := by
  obtain ⟨hx, hy⟩ := hwf
  obtain ⟨hr1a, hr1b, hr2a, hr2b, hr3a, hr3b, hr4a, hr4b⟩ := hd
  have hordx : (perturbBox p b d).x1 ≤ (perturbBox p b d).x2 := by
    simp only [perturbBox]
    have hq : p * (d.r1 - d.r3) ≤ p := by
      nlinarith [mul_nonneg hp0 (show (0 : ℚ) ≤ 1 - (d.r1 - d.r3) by linarith)]
    nlinarith [mul_nonneg (show (0 : ℚ) ≤ b.x2 - b.x1 by linarith)
      (show (0 : ℚ) ≤ 1 - p * (d.r1 - d.r3) by linarith)]
  have hordy : (perturbBox p b d).y1 ≤ (perturbBox p b d).y2 := by
    simp only [perturbBox]
    have hq : p * (d.r2 - d.r4) ≤ p := by
      nlinarith [mul_nonneg hp0 (show (0 : ℚ) ≤ 1 - (d.r2 - d.r4) by linarith)]
    nlinarith [mul_nonneg (show (0 : ℚ) ≤ b.y2 - b.y1 by linarith)
      (show (0 : ℚ) ≤ 1 - p * (d.r2 - d.r4) by linarith)]
  simp only [clampBox]
  refine ⟨?_, ?_, ?_, ?_, ?_, ?_⟩
  · exact le_min hW (le_max_left _ _)
  · exact min_le_min (le_refl W) (max_le_max (le_refl 0) hordx)
  · exact min_le_left _ _
  · exact le_min hH (le_max_left _ _)
  · exact min_le_min (le_refl H) (max_le_max (le_refl 0) hordy)
  · exact min_le_left _ _

/-! ## Claim theorems -/

/-- C1: the claim says `box_perturbation` with a positive clip size
returns the input boxes with one shared perturbation draw per clip
applied and clamped.  The clip branch (lg.py lines 594-599) never
assigns `perturbed_boxes` (and calls `torch.stack` on a list of Python
ints), so line 609 raises instead of returning: the function returns
nothing in clip mode. -/
theorem C1_clip_mode_never_returns (perturb_factor : ℚ)
    (boxes : List (List Box)) (image_shape : ℚ × ℚ) (clip_size : Int)
    (draws : List Draw) (hcs : 0 < clip_size) :
    box_perturbation perturb_factor boxes image_shape clip_size draws = none := by
  unfold box_perturbation
  rw [if_pos]
  omega

/-- C1 witness: a concrete clip-mode call (clip size 2, two one-box
frames) returns nothing. -/
theorem C1_clip_mode_never_returns_witness :
    (0 : Int) < 2 ∧
      box_perturbation (1/2) [[⟨1, 1, 3, 3⟩], [⟨2, 2, 4, 4⟩]] (10, 10) 2
        [⟨0, 0, 0, 0⟩, ⟨1/2, 1/2, 1/2, 1/2⟩] = none :=
  ⟨by decide,
   C1_clip_mode_never_returns (1/2) [[⟨1, 1, 3, 3⟩], [⟨2, 2, 4, 4⟩]] (10, 10) 2
     [⟨0, 0, 0, 0⟩, ⟨1/2, 1/2, 1/2, 1/2⟩] (by decide)⟩

/-- C2: the claim says both projector call sites duplicate a single
input row to two rows and take the first output row.  The node-level
site (guard on `shape[0]`, lg.py line 545) does; the edge-level site
(lg.py line 556) tests `edge_sem_input.shape[1] == 1` — the COLUMN
count, which is `4 + num_edge_classes` and never 1 — so a single edge
row reaches the batch-normalized projector undoubled and the call
fails in training mode. -/
theorem C2_single_row_projector_paths :
    (∀ (f : List ℚ → List ℚ) (row : List ℚ),
      semantic_feat_projector_call f [row] = Except.ok [f row]) ∧
    (∀ (f : List ℚ → List ℚ) (eb : Box) (class_logits : List ℚ),
      edge_semantic_feat_projector_call f [edge_sem_input_row eb class_logits]
        = Except.error "Expected more than 1 value per channel when training") := by
  constructor
  · intro f row
    simp [semantic_feat_projector_call, mlp_projector, Except.map]
  · intro f eb class_logits
    have hc : (matCols [edge_sem_input_row eb class_logits] == 1) = false := by
      simp [matCols, edge_sem_input_row]
    simp [edge_semantic_feat_projector_call, hc, mlp_projector]

/-- C3: with a downstream head configured and no graph head, both
`loss` and `predict` raise
`NotImplementedError("Must have graph head in order to do downstream prediction")`
(lg.py lines 195-201 and 231-235): the graph is `None`, the head call
fails with `AttributeError`, and the except block re-raises the
configuration error, so no empty downstream result is ever returned. -/
theorem C3_ds_head_without_graph_head_fails {γ α β : Type} (run : γ → α)
    (ds_loss : α → List (String × ℚ)) (ds_pred : α → List β)
    (det_losses : List (String × ℚ)) (results : List β) :
    LGDetector_loss (none : Option γ) run true ds_loss det_losses
        = Except.error ⟨"NotImplementedError",
            "Must have graph head in order to do downstream prediction"⟩ ∧
    LGDetector_predict (none : Option γ) run true ds_pred results
        = Except.error ⟨"NotImplementedError",
            "Must have graph head in order to do downstream prediction"⟩ := by
  exact ⟨rfl, rfl⟩

/-- C4 counterexample: the claim says each image is rescaled by its OWN
scale factor.  With a first image of scale factor 2 and a second of
scale factor 4, the box `(4, 4, 8, 8)` of the second image comes back
as `(2, 2, 4, 4)` — scaled by `1 / 2`, the FIRST image factor (lg.py
line 242 reads `results[0].scale_factor` once for the whole batch) —
not as `(1, 1, 2, 2)`. -/
theorem C4_per_image_scale_factor_false :
    ((predict_rescale [exA, exB]).getD 1 exA).bboxes
      ≠ exB.bboxes.map
          (scale_boxes (1 / exB.scale_factor.1, 1 / exB.scale_factor.2)) := by
  norm_num [predict_rescale, scale_boxes, exA, exB, Box.mk.injEq,
    List.getD_cons_succ, List.getD_cons_zero]

/-- C4 (amended): every image of the batch has its boxes scaled by the
reciprocal of the FIRST image scale factor (lg.py lines 241-245); masks
are resized per image to that image own original shape, and an image
with an empty predicted mask stack skips the resize (`interpolate`
rejects an empty stack) and gets an empty mask tensor of its original
shape instead (lg.py lines 246-251). -/
theorem C4_rescale_first_image_factor (r0 : PredResult) (rest : List PredResult)
    (i : ℕ) (hi : i < (r0 :: rest).length) :
    ((predict_rescale (r0 :: rest)).getD i r0).bboxes
        = ((r0 :: rest).getD i r0).bboxes.map
            (scale_boxes (1 / r0.scale_factor.1, 1 / r0.scale_factor.2)) ∧
    ((predict_rescale (r0 :: rest)).getD i r0).masks
        = ((r0 :: rest).getD i r0).masks.bind
            (fun m => rescale_masks m ((r0 :: rest).getD i r0).ori_shape) ∧
    (∀ m : MaskTensor, m.count = 0 →
        rescale_masks m ((r0 :: rest).getD i r0).ori_shape
            = some ⟨0, ((r0 :: rest).getD i r0).ori_shape⟩ ∧
        interpolate m ((r0 :: rest).getD i r0).ori_shape = none) ∧
    (∀ m : MaskTensor, m.count ≠ 0 →
        rescale_masks m ((r0 :: rest).getD i r0).ori_shape
            = some ⟨m.count, ((r0 :: rest).getD i r0).ori_shape⟩) := by
  have hmap : predict_rescale (r0 :: rest)
      = (r0 :: rest).map (fun r =>
          { r with
            bboxes := r.bboxes.map
              (scale_boxes (1 / r0.scale_factor.1, 1 / r0.scale_factor.2))
            masks := r.masks.bind (fun m => rescale_masks m r.ori_shape) }) := rfl
  rw [hmap, list_getD_map_of_lt _ _ _ _ r0 hi]
  refine ⟨rfl, rfl, ?_, ?_⟩
  · intro m hm
    exact ⟨by simp [rescale_masks, hm], by simp [interpolate, hm]⟩
  · intro m hm
    simp [rescale_masks, interpolate, hm]

/-- C4 witness: a concrete two-image batch, the second image carrying
one box and an empty mask stack. -/
theorem C4_rescale_first_image_factor_witness :
    (1 : ℕ) < (exA :: [exB]).length ∧
    (((predict_rescale (exA :: [exB])).getD 1 exA).bboxes
        = ((exA :: [exB]).getD 1 exA).bboxes.map
            (scale_boxes (1 / exA.scale_factor.1, 1 / exA.scale_factor.2)) ∧
     ((predict_rescale (exA :: [exB])).getD 1 exA).masks
        = ((exA :: [exB]).getD 1 exA).masks.bind
            (fun m => rescale_masks m ((exA :: [exB]).getD 1 exA).ori_shape) ∧
     (∀ m : MaskTensor, m.count = 0 →
        rescale_masks m ((exA :: [exB]).getD 1 exA).ori_shape
            = some ⟨0, ((exA :: [exB]).getD 1 exA).ori_shape⟩ ∧
        interpolate m ((exA :: [exB]).getD 1 exA).ori_shape = none) ∧
     (∀ m : MaskTensor, m.count ≠ 0 →
        rescale_masks m ((exA :: [exB]).getD 1 exA).ori_shape
            = some ⟨m.count, ((exA :: [exB]).getD 1 exA).ori_shape⟩)) :=
  ⟨by decide, C4_rescale_first_image_factor exA [exB] 1 (by decide)⟩

/-- C5: every box a `box_perturbation` call returns satisfies
`0 ≤ x1 ≤ x2 ≤ W` and `0 ≤ y1 ≤ y2 ≤ H` (lg.py lines 608-612 clamp
each coordinate to `[0, image bound]`, and the per-box perturbation
cannot invert a well-formed box because the factor is clamped to at
most 1 on line 586).  Stated for any clip size: a call that returns at
all (clip mode never does, see C1) returns only in-bounds boxes. -/
theorem C5_returned_boxes_in_bounds (perturb_factor W H : ℚ)
    (boxes : List (List Box)) (clip_size : Int) (draws : List Draw)
    (out : List (List Box))
    (hpf : 0 ≤ perturb_factor) (hW : 0 ≤ W) (hH : 0 ≤ H)
    (hwf : ∀ bs ∈ boxes, ∀ b ∈ bs, b.wf)
    (hd : ∀ d ∈ draws, d.valid)
    (hout : box_perturbation perturb_factor boxes (H, W) clip_size draws = some out) :
    ∀ bs ∈ out, ∀ b ∈ bs,
      0 ≤ b.x1 ∧ b.x1 ≤ b.x2 ∧ b.x2 ≤ W ∧ 0 ≤ b.y1 ∧ b.y1 ≤ b.y2 ∧ b.y2 ≤ H := by
  by_cases hcs : clip_size ≠ -1
  · simp only [box_perturbation] at hout
    rw [if_pos hcs] at hout
    cases hout
  · push_neg at hcs
    subst hcs
    simp only [box_perturbation] at hout
    rw [if_neg (by decide : ¬((-1 : Int) ≠ -1))] at hout
    have hout2 := Option.some.inj hout
    subst hout2
    intro bs hbs b hb
    have hbc := mem_of_mem_splitList (boxes.map List.length) b _ bs hbs hb
    obtain ⟨pb, hpb, rfl⟩ := List.mem_map.mp hbc
    obtain ⟨bd, hbd, rfl⟩ := List.mem_map.mp hpb
    have hb0 : bd.1 ∈ boxes.flatten := (List.of_mem_zip hbd).1
    have hdm : bd.2 ∈ draws := (List.of_mem_zip hbd).2
    obtain ⟨l, hl, hbl⟩ := List.mem_flatten.mp hb0
    exact perturb_clamp_box_valid (min perturb_factor 1) W H bd.1 bd.2
      (le_min hpf zero_le_one) (min_le_right _ _) hW hH
      (hwf l hl bd.1 hbl) (hd bd.2 hdm)

/-- C5 witness: one image, one box `(1, 2, 5, 6)`, factor 1, draw
`(0, 1, 0, 1)`, image 8 x 10: the returned box is `(0, 2, 1, 6)`,
inside bounds. -/
theorem C5_returned_boxes_in_bounds_witness :
    ((0 : ℚ) ≤ 1 ∧ (0 : ℚ) ≤ 10 ∧ (0 : ℚ) ≤ 8 ∧
     (∀ bs ∈ ([[⟨1, 2, 5, 6⟩]] : List (List Box)), ∀ b ∈ bs, b.wf) ∧
     (∀ d ∈ ([⟨0, 1, 0, 1⟩] : List Draw), d.valid) ∧
     box_perturbation 1 [[⟨1, 2, 5, 6⟩]] (8, 10) (-1) [⟨0, 1, 0, 1⟩]
       = some [[⟨0, 2, 1, 6⟩]]) ∧
    (∀ bs ∈ ([[⟨0, 2, 1, 6⟩]] : List (List Box)), ∀ b ∈ bs,
      0 ≤ b.x1 ∧ b.x1 ≤ b.x2 ∧ b.x2 ≤ (10 : ℚ) ∧
      0 ≤ b.y1 ∧ b.y1 ≤ b.y2 ∧ b.y2 ≤ (8 : ℚ)) := by
  have hout : box_perturbation 1 [[⟨1, 2, 5, 6⟩]] (8, 10) (-1) [⟨0, 1, 0, 1⟩]
      = some [[⟨0, 2, 1, 6⟩]] := by
    norm_num [box_perturbation, perturbBox, clampBox, splitList, min_def, max_def]
  exact ⟨⟨by norm_num, by norm_num, by norm_num, by decide, by decide, hout⟩,
    C5_returned_boxes_in_bounds 1 10 8 [[⟨1, 2, 5, 6⟩]] (-1) [⟨0, 1, 0, 1⟩]
      [[⟨0, 2, 1, 6⟩]] (by norm_num) (by norm_num) (by norm_num) (by decide)
      (by decide) hout⟩

/-- C6: via the region-pooling path (lg.py lines 450-453) the padded
instance-feature tensor has second dimension equal to the maximum
per-image instance count of the batch; the valid region of image `i`
(its rows before padding) is exactly its group of pooled features, as
long as its true instance count; and an image with zero instances
contributes a zero-length group before padding. -/
theorem C6_padded_instance_feat_shape {α : Type} (pad : α) (roi_feats : List α)
    (boxes : List (List Box))
    (hlen : roi_feats.length = (boxes.map List.length).sum) :
    (splitList roi_feats (boxes.map List.length)).map List.length
        = boxes.map List.length ∧
    (∀ row ∈ extract_feat_instance_feats pad roi_feats boxes,
        row.length = (boxes.map List.length).foldr max 0) ∧
    (∀ i, i < boxes.length →
        ((extract_feat_instance_feats pad roi_feats boxes).getD i []).take
            ((boxes.map List.length).getD i 0)
          = (splitList roi_feats (boxes.map List.length)).getD i [] ∧
        ((splitList roi_feats (boxes.map List.length)).getD i []).length
          = (boxes.map List.length).getD i 0 ∧
        ((boxes.map List.length).getD i 0 = 0 →
          (splitList roi_feats (boxes.map List.length)).getD i [] = [])) := by
  have hml := splitList_map_length (boxes.map List.length) roi_feats hlen
  refine ⟨hml, ?_, ?_⟩
  · intro row hrow
    have hr := pad_sequence_row_length pad
      (splitList roi_feats (boxes.map List.length)) row hrow
    rwa [hml] at hr
  · intro i hi
    have hig : i < (splitList roi_feats (boxes.map List.length)).length := by
      rw [splitList_length]
      simpa using hi
    have hlen_i : ((splitList roi_feats (boxes.map List.length)).getD i []).length
        = (boxes.map List.length).getD i 0 := by
      have hgd := list_getD_map_of_lt List.length
        (splitList roi_feats (boxes.map List.length)) i 0 [] hig
      rw [← hgd, hml]
    refine ⟨?_, hlen_i, ?_⟩
    · simp only [extract_feat_instance_feats, pad_sequence]
      rw [list_getD_map_of_lt _ _ _ _ [] hig, ← hlen_i, List.take_left]
    · intro h0
      rw [h0] at hlen_i
      exact List.length_eq_zero.mp hlen_i

/-- C6 witness: a three-image batch with instance counts 2, 0, 1 and
pooled features numbered 10, 11, 12. -/
theorem C6_padded_instance_feat_shape_witness :
    ([10, 11, 12] : List ℚ).length
        = (([[⟨0, 0, 1, 1⟩, ⟨1, 1, 2, 2⟩], [], [⟨2, 2, 3, 3⟩]] :
            List (List Box)).map List.length).sum ∧
    ((splitList ([10, 11, 12] : List ℚ)
        (([[⟨0, 0, 1, 1⟩, ⟨1, 1, 2, 2⟩], [], [⟨2, 2, 3, 3⟩]] :
            List (List Box)).map List.length)).map List.length
        = ([[⟨0, 0, 1, 1⟩, ⟨1, 1, 2, 2⟩], [], [⟨2, 2, 3, 3⟩]] :
            List (List Box)).map List.length ∧
     (∀ row ∈ extract_feat_instance_feats (0 : ℚ) [10, 11, 12]
          [[⟨0, 0, 1, 1⟩, ⟨1, 1, 2, 2⟩], [], [⟨2, 2, 3, 3⟩]],
        row.length = (([[⟨0, 0, 1, 1⟩, ⟨1, 1, 2, 2⟩], [], [⟨2, 2, 3, 3⟩]] :
            List (List Box)).map List.length).foldr max 0) ∧
     (∀ i, i < ([[⟨0, 0, 1, 1⟩, ⟨1, 1, 2, 2⟩], [], [⟨2, 2, 3, 3⟩]] :
            List (List Box)).length →
        ((extract_feat_instance_feats (0 : ℚ) [10, 11, 12]
            [[⟨0, 0, 1, 1⟩, ⟨1, 1, 2, 2⟩], [], [⟨2, 2, 3, 3⟩]]).getD i []).take
            ((([[⟨0, 0, 1, 1⟩, ⟨1, 1, 2, 2⟩], [], [⟨2, 2, 3, 3⟩]] :
                List (List Box)).map List.length).getD i 0)
          = (splitList ([10, 11, 12] : List ℚ)
              (([[⟨0, 0, 1, 1⟩, ⟨1, 1, 2, 2⟩], [], [⟨2, 2, 3, 3⟩]] :
                  List (List Box)).map List.length)).getD i [] ∧
        ((splitList ([10, 11, 12] : List ℚ)
            (([[⟨0, 0, 1, 1⟩, ⟨1, 1, 2, 2⟩], [], [⟨2, 2, 3, 3⟩]] :
                List (List Box)).map List.length)).getD i []).length
          = (([[⟨0, 0, 1, 1⟩, ⟨1, 1, 2, 2⟩], [], [⟨2, 2, 3, 3⟩]] :
              List (List Box)).map List.length).getD i 0 ∧
        ((([[⟨0, 0, 1, 1⟩, ⟨1, 1, 2, 2⟩], [], [⟨2, 2, 3, 3⟩]] :
            List (List Box)).map List.length).getD i 0 = 0 →
          (splitList ([10, 11, 12] : List ℚ)
              (([[⟨0, 0, 1, 1⟩, ⟨1, 1, 2, 2⟩], [], [⟨2, 2, 3, 3⟩]] :
                  List (List Box)).map List.length)).getD i [] = []))) :=
  ⟨by decide,
   C6_padded_instance_feat_shape (0 : ℚ) [10, 11, 12]
     [[⟨0, 0, 1, 1⟩, ⟨1, 1, 2, 2⟩], [], [⟨2, 2, 3, 3⟩]] (by decide)⟩

/-- C7: for a batch whose per-image edge counts are the group lengths,
both result-aggregation paths re-slice every edge-level field to
exactly those lengths per image, and the globally-batched image-index
column is stripped from the re-sliced edge_flats:
`add_lg_to_results` splits by `edges_per_img` and drops column 0
(lg.py lines 294-310); `add_scene_graph_to_results` selects rows by
the image-index column and drops it (lg.py lines 264-271). -/
theorem C7_edge_reslicing {α : Type} (groups : List (List EdgeFlat))
    (fgroups : List (List α)) (i : ℕ)
    (htag : taggedFrom EdgeFlat.img groups 0)
    (hlen : fgroups.map List.length = groups.map List.length)
    (hi : i < groups.length) :
    (add_lg_edge_flats groups.flatten (groups.map List.length) i
        = (groups.getD i []).map (fun e => (e.src, e.tgt)) ∧
     (add_lg_edge_flats groups.flatten (groups.map List.length) i).length
        = (groups.map List.length).getD i 0) ∧
    (add_lg_edge_field fgroups.flatten (groups.map List.length) i
        = fgroups.getD i [] ∧
     (add_lg_edge_field fgroups.flatten (groups.map List.length) i).length
        = (groups.map List.length).getD i 0) ∧
    (scene_graph_edge_flats groups.flatten i
        = (groups.getD i []).map (fun e => (e.src, e.tgt)) ∧
     (scene_graph_edge_flats groups.flatten i).length
        = (groups.map List.length).getD i 0) ∧
    (scene_graph_relations groups.flatten fgroups.flatten i
        = fgroups.getD i [] ∧
     (scene_graph_relations groups.flatten fgroups.flatten i).length
        = (groups.map List.length).getD i 0) := by
  have hflen : fgroups.length = groups.length := by
    have hc := congrArg List.length hlen
    simpa using hc
  have hgi : (groups.getD i []).length = (groups.map List.length).getD i 0 :=
    (list_getD_map_of_lt List.length groups i 0 [] hi).symm
  have hfi : (fgroups.getD i []).length = (groups.map List.length).getD i 0 := by
    have h2 := list_getD_map_of_lt List.length fgroups i 0 []
      (by omega : i < fgroups.length)
    rw [hlen] at h2
    exact h2.symm
  have hsplitg : splitList groups.flatten (groups.map List.length) = groups :=
    splitList_flatten groups
  have hsplitf : splitList fgroups.flatten (groups.map List.length) = fgroups := by
    rw [← hlen]
    exact splitList_flatten fgroups
  have halg : add_lg_edge_flats groups.flatten (groups.map List.length) i
      = (groups.getD i []).map (fun e => (e.src, e.tgt)) := by
    unfold add_lg_edge_flats
    rw [hsplitg]
  have half : add_lg_edge_field fgroups.flatten (groups.map List.length) i
      = fgroups.getD i [] := by
    unfold add_lg_edge_field
    rw [hsplitf]
  have hfilt : groups.flatten.filter (fun e => e.img == i) = groups.getD i [] := by
    have h3 := filter_flatten_tagged EdgeFlat.img groups 0 i htag hi
    simpa using h3
  have hsg : scene_graph_edge_flats groups.flatten i
      = (groups.getD i []).map (fun e => (e.src, e.tgt)) := by
    unfold scene_graph_edge_flats
    rw [hfilt]
  have hzip : groups.flatten.zip fgroups.flatten
      = (List.zipWith List.zip groups fgroups).flatten :=
    zip_flatten_eq groups fgroups hlen.symm
  have htagz := taggedFrom_zipWith EdgeFlat.img groups fgroups 0 htag
  have hiz : i < (List.zipWith List.zip groups fgroups).length := by
    rw [List.length_zipWith]
    omega
  have hfiltz : (List.zipWith List.zip groups fgroups).flatten.filter
      (fun p => p.1.img == i) = (groups.getD i []).zip (fgroups.getD i []) := by
    have h4 := filter_flatten_tagged (fun p : EdgeFlat × α => p.1.img)
      (List.zipWith List.zip groups fgroups) 0 i htagz hiz
    rw [getD_zipWith_zip groups fgroups i hi (by omega)] at h4
    simpa using h4
  have hrel : scene_graph_relations groups.flatten fgroups.flatten i
      = fgroups.getD i [] := by
    unfold scene_graph_relations
    rw [hzip, hfiltz]
    exact List.map_snd_zip _ _ (by omega)
  refine ⟨⟨halg, ?_⟩, ⟨half, ?_⟩, ⟨hsg, ?_⟩, ⟨hrel, ?_⟩⟩
  · rw [halg, List.length_map]
    exact hgi
  · rw [half]
    exact hfi
  · rw [hsg, List.length_map]
    exact hgi
  · rw [hrel]
    exact hfi

/-- C7 witness: the spec example batch with per-image edge counts
`[3, 0, 5]` (`egs`, with field values `efs`), at image index 2. -/
theorem C7_edge_reslicing_witness :
    (taggedFrom EdgeFlat.img egs 0 ∧
     efs.map List.length = egs.map List.length ∧
     2 < egs.length) ∧
    ((add_lg_edge_flats egs.flatten (egs.map List.length) 2
        = (egs.getD 2 []).map (fun e => (e.src, e.tgt)) ∧
      (add_lg_edge_flats egs.flatten (egs.map List.length) 2).length
        = (egs.map List.length).getD 2 0) ∧
     (add_lg_edge_field efs.flatten (egs.map List.length) 2
        = efs.getD 2 [] ∧
      (add_lg_edge_field efs.flatten (egs.map List.length) 2).length
        = (egs.map List.length).getD 2 0) ∧
     (scene_graph_edge_flats egs.flatten 2
        = (egs.getD 2 []).map (fun e => (e.src, e.tgt)) ∧
      (scene_graph_edge_flats egs.flatten 2).length
        = (egs.map List.length).getD 2 0) ∧
     (scene_graph_relations egs.flatten efs.flatten 2
        = efs.getD 2 [] ∧
      (scene_graph_relations egs.flatten efs.flatten 2).length
        = (egs.map List.length).getD 2 0)) :=
  ⟨⟨by decide, by decide, by decide⟩,
   C7_edge_reslicing egs efs 2 (by decide) (by decide) (by decide)⟩

/-- C8: with a graph head configured, `extract_lg` (lg.py lines
342-358) trains the graph head (calls `loss_and_predict`) exactly when
the detector is training, or when the force-train-graph-head flag is
set and the whole model is training; otherwise it only calls
`predict`. -/
theorem C8_graph_head_training_routing :
    ∀ (detector_training force_train_graph_head model_training : Bool),
      extract_lg_graph_action detector_training force_train_graph_head model_training
          = GraphAction.lossAndPredict
        ↔ (detector_training = true ∨
            (force_train_graph_head = true ∧ model_training = true)) := by
  decide

/-- C9: with a configured perturbation factor of 0, the guard
`(self.training or force_perturb) and self.perturb_factor > 0`
(lg.py line 419) is false, so the boxes used for feature extraction
are exactly the input boxes. -/
theorem C9_zero_factor_is_identity (training force_perturb : Bool)
    (boxes : List (List Box)) (image_shape : ℚ × ℚ) (clip_size : Int)
    (draws : List Draw) :
    extract_feat_boxes training force_perturb 0 boxes image_shape clip_size draws
      = some boxes :=
  extract_feat_boxes_zero_factor training force_perturb boxes image_shape clip_size draws

/-- C10: `__init__` (lg.py line 72) forces the stored perturbation
factor to 0 whenever `use_gt_dets` is set, so for any configured
factor, any training mode and any `force_perturb` flag, feature
extraction uses the unperturbed input boxes. -/
theorem C10_use_gt_dets_disables_perturbation (perturb_factor : ℚ)
    (training force_perturb : Bool) (boxes : List (List Box))
    (image_shape : ℚ × ℚ) (clip_size : Int) (draws : List Draw) :
    extract_feat_boxes training force_perturb
        (init_perturb_factor perturb_factor true) boxes image_shape clip_size draws
      = some boxes := by
  have h : init_perturb_factor perturb_factor true = 0 := rfl
  rw [h]
  exact extract_feat_boxes_zero_factor training force_perturb boxes image_shape
    clip_size draws

end LG
